import Mathlib

/-!
Shallow embedding of the Viaduct skill evaluation harness
(`test/run-evaluations.sh`, parallel edition, plus the exit-code logic of
`viaduct/run-evaluations.ts`).

The harness runs one evaluation as: provision a workspace, invoke the agent,
run a bounded build-and-fix retry loop, check required/forbidden patterns,
record a result line, archive the workspace on failure or retry, and remove
the temporary workspace.  The embedding models each collaborator (setup,
agent, per-attempt build outcome, per-pattern grep outcome) as an abstract
input and reproduces the script's control flow.
-/

namespace ViaductEval

/-! ## grep / sed model (line-based, as used by `extract_error_summary`) -/

/-- `containsSub pat s` models `grep` fixed-string matching: `pat` occurs as a
contiguous substring of the line `s`. -/
def containsSub (pat s : String) : Bool :=
  decide (pat.data <:+: s.data)

/-- `grep pat file | head -1`: the first line satisfying the predicate, or the
empty string when none does. -/
def grepFirst (pred : String → Bool) (lines : List String) : String :=
  (lines.filter pred).headD ""

/-- Characters of `cs` strictly before the first occurrence of `pat` as a
contiguous block; `none` when `pat` does not occur. -/
def beforeFirst (pat : List Char) : List Char → Option (List Char)
  | [] => none
  | c :: rest =>
    if pat.isPrefixOf (c :: rest) then some []
    else (beforeFirst pat rest).map (c :: ·)

/-- `sed s/.*PAT//`: greedy, so everything up to and including the **last**
occurrence of `pat` is removed; the line is unchanged when `pat` does not
occur. -/
def sedStripThrough (pat : String) (line : String) : String :=
  match beforeFirst pat.data.reverse line.data.reverse with
  | some pre => ⟨pre.reverse⟩
  | none => line

/-- `tail -3 file | head -1`: the third-from-last line (the first line of the
file when it has fewer than three lines, empty output for an empty file). -/
def tail3head1 (lines : List String) : String :=
  (lines.drop (lines.length - 3)).headD ""

/-- `extract_error_summary` from `run-evaluations.sh`: an if/elif chain of
`grep -q` guards over the build output, each branch extracting the first
matching line (three of them post-processing it with a greedy `sed`), with a
`tail -3 | head -1` fallback. -/
def extract_error_summary (lines : List String) : String :=
  if lines.any (containsSub "Unresolved reference") then
    sedStripThrough ": " (grepFirst (containsSub "Unresolved reference") lines)
  else if lines.any (containsSub "cannot find symbol") then
    grepFirst (containsSub "cannot find symbol") lines
  else if lines.any (containsSub "not found") then
    sedStripThrough ": "
      (grepFirst (fun l => containsSub "not found" l || containsSub "Not found" l) lines)
  else if lines.any (containsSub "expected") then
    grepFirst (containsSub "expected") lines
  else if lines.any (containsSub "error:") then
    sedStripThrough "error: " (grepFirst (containsSub "error:") lines)
  else
    tail3head1 lines

/-- An ordered list of (guard, extractor) error signatures, evaluated in
priority order; the data-driven reformulation of the diagnostic extractor. -/
def errorSignatures : List ((String → Bool) × (List String → String)) :=
  [ (containsSub "Unresolved reference",
      fun ls => sedStripThrough ": " (grepFirst (containsSub "Unresolved reference") ls)),
    (containsSub "cannot find symbol",
      fun ls => grepFirst (containsSub "cannot find symbol") ls),
    (containsSub "not found",
      fun ls => sedStripThrough ": "
        (grepFirst (fun l => containsSub "not found" l || containsSub "Not found" l) ls)),
    (containsSub "expected",
      fun ls => grepFirst (containsSub "expected") ls),
    (containsSub "error:",
      fun ls => sedStripThrough "error: " (grepFirst (containsSub "error:") ls)) ]

/-- First signature (in priority order) whose guard matches some line, applied
to the output; `none` when no signature matches. -/
def firstSignatureMatch :
    List ((String → Bool) × (List String → String)) → List String → Option String
  | [], _ => none
  | sig :: rest, lines =>
    if lines.any sig.1 then some (sig.2 lines) else firstSignatureMatch rest lines

/-- Diagnostic extraction as "first match in an ordered signature list, with
the `tail -3 | head -1` fallback". -/
def orderedSignatureExtract (lines : List String) : String :=
  (firstSignatureMatch errorSignatures lines).getD (tail3head1 lines)

/-- Modelled from the spec's words: the fallback the spec describes is "the
last non-empty line of the build output". -/
def specLastNonEmptyLine (lines : List String) : String :=
  (lines.filter (fun l => !(l == ""))).getLastD ""

/-! ## The retry / repair loop of `run_evaluation` -/

/-- Observable steps of one evaluation, in the order the script performs
them. -/
inductive Event where
  | setup
  | agentInvoke
  | build (n : Nat)
  | fixInvoke (n : Nat)
  | patternCheck
deriving DecidableEq, Repr

def isBuildEvent : Event → Bool
  | .build _ => true
  | _ => false

def isAgentEvent : Event → Bool
  | .agentInvoke => true
  | .fixInvoke _ => true
  | _ => false

/-- State left behind by the build-and-fix `while` loop: the `build_success`
flag, the value of the `attempt` counter after the loop, the per-failed-attempt
diagnostic summaries (`retry_errors` / one `Attempt N:` line each in the errors
file), and the trace of builds and repair-agent invocations performed. -/
structure LoopResult where
  buildSuccess : Bool
  finalAttempt : Nat
  retryErrors : List String
  trace : List Event
deriving DecidableEq, Repr

/-- The `while [[ $attempt -le $MAX_RETRIES ]]` loop, parameterised by the
current `attempt` counter and the number of iterations the guard still
permits (`remaining = MAX_RETRIES - attempt + 1`).  `buildOk n` is the outcome
of the gradle build run at attempt `n`; `errOf n` the diagnostic extracted
from its output.  A repair-agent invocation happens only when
`attempt < MAX_RETRIES`, i.e. when more than one permitted iteration
remains. -/
def buildLoopFrom (buildOk : Nat → Bool) (errOf : Nat → String) :
    Nat → Nat → LoopResult
  | attempt, 0 => ⟨false, attempt, [], []⟩
  | attempt, remaining + 1 =>
    if buildOk attempt then
      ⟨true, attempt, [], [.build attempt]⟩
    else
      let rest := buildLoopFrom buildOk errOf (attempt + 1) remaining
      ⟨rest.buildSuccess, rest.finalAttempt,
        errOf attempt :: rest.retryErrors,
        .build attempt ::
          ((if 0 < remaining then [Event.fixInvoke attempt] else []) ++ rest.trace)⟩

/-- The loop as entered by the script: `attempt = 1`, guard `≤ MAX_RETRIES`. -/
def buildLoop (maxRetries : Nat) (buildOk : Nat → Bool) (errOf : Nat → String) :
    LoopResult :=
  buildLoopFrom buildOk errOf 1 maxRetries

/-! ## One whole evaluation (`run_evaluation`) -/

/-- The result-record line written to `<eval-id>….result`
(`PASS|id|attempt|retryErrors|timing` or `FAIL|id|attempt|reasons|…`).  The
eval id and timing fields carry no logic and are omitted. -/
inductive ResultRecord where
  | pass (attempt : Nat) (retryErrors : List String)
  | fail (attempt : Nat) (reasons : List String) (retryErrors : List String)
deriving DecidableEq, Repr

def ResultRecord.isPass : ResultRecord → Bool
  | .pass _ _ => true
  | .fail _ _ _ => false

def ResultRecord.attempt : ResultRecord → Nat
  | .pass a _ => a
  | .fail a _ _ => a

def ResultRecord.retryErrors : ResultRecord → List String
  | .pass _ e => e
  | .fail _ _ e => e

/-- Abstract inputs of one `run_evaluation` call: configuration plus the
outcomes of its external collaborators (setup, agent auth, per-attempt build,
and per-pattern recursive grep over `$work_dir/src` after the loop). -/
structure EvalConfig where
  maxRetries : Nat
  setupOk : Bool
  agentOk : Bool
  buildOk : Nat → Bool
  errOf : Nat → String
  verifyPatterns : List String
  negativePatterns : List String
  patMatches : String → Bool

/-- Everything observable about one finished `run_evaluation` call. -/
structure EvalReport where
  record : ResultRecord
  trace : List Event
  archived : Bool
  workspaceRemoved : Bool
deriving DecidableEq, Repr

/-- Non-empty required patterns (the `[[ -n "$pattern" ]]` guard). -/
def requiredPatterns (cfg : EvalConfig) : List String :=
  cfg.verifyPatterns.filter (fun p => !(p == ""))

/-- Non-empty forbidden patterns. -/
def negPatterns (cfg : EvalConfig) : List String :=
  cfg.negativePatterns.filter (fun p => !(p == ""))

def patternsTotal (cfg : EvalConfig) : Nat := (requiredPatterns cfg).length

def patternsFound (cfg : EvalConfig) : Nat :=
  ((requiredPatterns cfg).filter cfg.patMatches).length

def negativeFailed (cfg : EvalConfig) : Nat :=
  ((negPatterns cfg).filter cfg.patMatches).length

/-- The pass condition at the end of `run_evaluation`:
`build_success -eq 1 && patterns_found -eq patterns_total && negative_failed -eq 0`. -/
def evalPassed (cfg : EvalConfig) (lr : LoopResult) : Bool :=
  lr.buildSuccess && (patternsFound cfg == patternsTotal cfg)
    && (negativeFailed cfg == 0)

/-- The comma-separated `fail_reason` field, as a list. -/
def failReasons (buildSuccess missing forbidden : Bool) : List String :=
  (if buildSuccess then [] else ["build_failed"])
    ++ (if missing then ["missing_patterns"] else [])
    ++ (if forbidden then ["forbidden_patterns"] else [])

/-- `run_evaluation` (parallel edition): setup, initial agent run, the
build-and-fix loop, one pattern check, result record, archive-on-failure-or-
retry, and removal of the temporary workspace.  A setup failure writes
`FAIL|id|0|SETUP_FAILED` and returns at once; an agent/auth failure writes
`FAIL|id|0|AUTH_FAILED` and returns at once. -/
def run_evaluation (cfg : EvalConfig) : EvalReport :=
  if cfg.setupOk = false then
    ⟨.fail 0 ["SETUP_FAILED"] [], [.setup], false, false⟩
  else if cfg.agentOk = false then
    ⟨.fail 0 ["AUTH_FAILED"] [], [.setup, .agentInvoke], false, false⟩
  else
    let lr := buildLoop cfg.maxRetries cfg.buildOk cfg.errOf
    { record :=
        if evalPassed cfg lr then
          .pass lr.finalAttempt lr.retryErrors
        else
          .fail lr.finalAttempt
            (failReasons lr.buildSuccess
              (!(patternsFound cfg == patternsTotal cfg))
              (!(negativeFailed cfg == 0)))
            lr.retryErrors
      trace := Event.setup :: Event.agentInvoke :: (lr.trace ++ [Event.patternCheck])
      archived := !evalPassed cfg lr || decide (1 < lr.finalAttempt)
      workspaceRemoved := true }

/-- Number of gradle builds actually run during the evaluation. -/
def buildAttempts (rep : EvalReport) : Nat :=
  (rep.trace.filter isBuildEvent).length

/-- Number of agent invocations (the initial one plus repair prompts). -/
def agentInvocations (rep : EvalReport) : Nat :=
  (rep.trace.filter isAgentEvent).length

/-! ## Workspace path derivation -/

/-- `work_dir="$WORK_BASE-$eval_id$suffix$backend_suffix"`. -/
def work_dir (workBase evalId suffix backendSuffix : String) : String :=
  workBase ++ "-" ++ evalId ++ suffix ++ backendSuffix

/-! ## Token extraction (`extract_tokens`) -/

/-- One line of `.claude-usage.jsonl` (one JSON object per agent
invocation). -/
structure UsageEntry where
  input_tokens : Nat
  output_tokens : Nat
  cache_creation : Nat
  cache_read : Nat
  cost : Rat
deriving DecidableEq, Repr

/-- One row of the Crush `sessions` SQLite table. -/
structure CrushSession where
  prompt_tokens : Nat
  completion_tokens : Nat
  cost : Rat
deriving DecidableEq, Repr

/-- `extract_tokens`: prefer the Claude usage log, else the Crush database
(when `sqlite3` is available), else write `0|0|0`.  Returns
`(prompt_tokens, completion_tokens, cost)`. -/
def extract_tokens (usageLog : Option (List UsageEntry))
    (crushDb : Option (List CrushSession)) (sqlite3Available : Bool) :
    Nat × Nat × Rat :=
  match usageLog with
  | some entries =>
    ((entries.map (fun e => e.input_tokens + e.cache_creation + e.cache_read)).sum,
     (entries.map (fun e => e.output_tokens)).sum,
     (entries.map (fun e => e.cost)).sum)
  | none =>
    match crushDb with
    | some rows =>
      if sqlite3Available then
        ((rows.map (fun r => r.prompt_tokens)).sum,
         (rows.map (fun r => r.completion_tokens)).sum,
         (rows.map (fun r => r.cost)).sum)
      else (0, 0, 0)
    | none => (0, 0, 0)

/-! ## Scheduler exit code (`main` of the shell script and of the TS harness) -/

/-- The per-evaluation result as `main` sees it when aggregating: the parsed
`.result` file, or `none` when the file is missing (the evaluation timed out
before writing it). -/
def resultFilePass : Option ResultRecord → Bool
  | some r => r.isPass
  | none => false

/-- `main`'s aggregation: `failed` counts every selected evaluation whose
result file is missing or not `PASS`; the process exits 1 when
`failed > 0` and 0 otherwise. -/
def mainExitCode (results : List (Option ResultRecord)) : Nat :=
  if 0 < (results.filter (fun r => !(resultFilePass r))).length then 1 else 0

/-- `run-evaluations.ts`: `process.exit(passed === results.length ? 0 : 1)`
where `passed` counts results with `r.passed`. -/
def tsExitCode (passedFlags : List Bool) : Nat :=
  if (passedFlags.filter (fun b => b)).length == passedFlags.length then 0 else 1

/-! ## Helper lemmas -/

theorem length_filter_eq_length_iff {α : Type} (p : α → Bool) (l : List α) :
    (l.filter p).length = l.length ↔ ∀ a ∈ l, p a = true := by
  constructor
  · intro h
    have hsub : List.Sublist (l.filter p) l := List.filter_sublist l
    have heq := hsub.eq_of_length h
    intro a ha
    exact List.of_mem_filter (heq ▸ ha)
  · intro h
    rw [List.filter_eq_self.mpr h]

/-- Reindexing a map over `range (r+1)` by peeling the first element. -/
theorem map_range_shift {α : Type} (f : Nat → α) (a r : Nat) :
    (List.range (r + 1)).map (fun j => f (a + j)) =
      f a :: (List.range r).map (fun j => f (a + 1 + j)) := by
  rw [List.range_succ_eq_map, List.map_cons, List.map_map]
  have h2 : (List.range r).map ((fun j => f (a + j)) ∘ Nat.succ)
      = (List.range r).map (fun j => f (a + 1 + j)) := by
    apply List.map_congr_left
    intro j _
    show f (a + (j + 1)) = f (a + 1 + j)
    congr 1
    omega
  rw [h2]
  simp

/-- When every build fails, the loop consumes its whole budget: no success,
the counter ends one past the budget, one diagnostic per permitted attempt,
as many builds as permitted attempts, and one repair invocation fewer. -/
theorem buildLoopFrom_all_fail (buildOk : Nat → Bool) (errOf : Nat → String)
    (h : ∀ n, buildOk n = false) (r : Nat) :
    ∀ a,
      (buildLoopFrom buildOk errOf a r).buildSuccess = false ∧
      (buildLoopFrom buildOk errOf a r).finalAttempt = a + r ∧
      (buildLoopFrom buildOk errOf a r).retryErrors =
        (List.range r).map (fun j => errOf (a + j)) ∧
      ((buildLoopFrom buildOk errOf a r).trace.filter isBuildEvent).length = r ∧
      ((buildLoopFrom buildOk errOf a r).trace.filter isAgentEvent).length = r - 1 := by
  induction r with
  | zero => intro a; simp [buildLoopFrom]
  | succ r ih =>
    intro a
    obtain ⟨ih1, ih2, ih3, ih4, ih5⟩ := ih (a + 1)
    rcases Nat.eq_zero_or_pos r with hr | hr
    · subst hr
      simp [buildLoopFrom, h a, isBuildEvent, isAgentEvent, List.range_succ]
    · have hfix : (if 0 < r then [Event.fixInvoke a] else []) = [Event.fixInvoke a] := by
        simp [hr]
      refine ⟨?_, ?_, ?_, ?_, ?_⟩
      · simp [buildLoopFrom, h a, ih1]
      · simp [buildLoopFrom, h a, ih2]; omega
      · simp only [buildLoopFrom, h a, Bool.false_eq_true, if_false, ih3]
        rw [map_range_shift errOf a r]
      · simp [buildLoopFrom, h a, hfix, isBuildEvent, isAgentEvent, ih4]
      · simp [buildLoopFrom, h a, hfix, isBuildEvent, isAgentEvent, ih5]
        omega

/-- When the first success happens at attempt `a + i` (within budget), the
loop stops there: the builds performed are exactly attempts `a … a+i`, one
repair invocation follows each of the `i` failed builds, and one diagnostic
is recorded per failed build. -/
theorem buildLoopFrom_first_success (buildOk : Nat → Bool) (errOf : Nat → String)
    (i : Nat) :
    ∀ a r, i < r → buildOk (a + i) = true →
      (∀ j, j < i → buildOk (a + j) = false) →
      (buildLoopFrom buildOk errOf a r).buildSuccess = true ∧
      (buildLoopFrom buildOk errOf a r).finalAttempt = a + i ∧
      (buildLoopFrom buildOk errOf a r).retryErrors =
        (List.range i).map (fun j => errOf (a + j)) ∧
      (buildLoopFrom buildOk errOf a r).trace.filter isBuildEvent =
        (List.range (i + 1)).map (fun j => Event.build (a + j)) ∧
      ((buildLoopFrom buildOk errOf a r).trace.filter isAgentEvent).length = i := by
  induction i with
  | zero =>
    intro a r hir hsucc _
    obtain ⟨r', rfl⟩ : ∃ r', r = r' + 1 := ⟨r - 1, by omega⟩
    simp only [Nat.add_zero] at hsucc
    simp [buildLoopFrom, hsucc, isBuildEvent, isAgentEvent, List.range_succ]
  | succ i ih =>
    intro a r hir hsucc hmin
    obtain ⟨r', rfl⟩ : ∃ r', r = r' + 1 := ⟨r - 1, by omega⟩
    have ha : buildOk a = false := by
      have h0 := hmin 0 (Nat.succ_pos i)
      simpa using h0
    have hr' : i < r' := by omega
    have hsucc' : buildOk (a + 1 + i) = true := by
      have harith : a + 1 + i = a + (i + 1) := by omega
      rw [harith]; exact hsucc
    have hmin' : ∀ j, j < i → buildOk (a + 1 + j) = false := by
      intro j hj
      have harith : a + 1 + j = a + (j + 1) := by omega
      rw [harith]; exact hmin (j + 1) (by omega)
    obtain ⟨ih1, ih2, ih3, ih4, ih5⟩ := ih (a + 1) r' hr' hsucc' hmin'
    have hrpos : 0 < r' := by omega
    have hfix : (if 0 < r' then [Event.fixInvoke a] else []) = [Event.fixInvoke a] := by
      simp [hrpos]
    refine ⟨?_, ?_, ?_, ?_, ?_⟩
    · simp [buildLoopFrom, ha, ih1]
    · simp [buildLoopFrom, ha, ih2]; omega
    · simp only [buildLoopFrom, ha, Bool.false_eq_true, if_false, ih3]
      rw [map_range_shift errOf a i]
    · simp only [buildLoopFrom, ha, Bool.false_eq_true, if_false, hfix]
      rw [map_range_shift (fun n => Event.build n) a (i + 1)]
      simp only [List.filter_cons, List.filter_append, isBuildEvent, ih4]
      simp [isBuildEvent]
    · simp [buildLoopFrom, ha, hfix, isBuildEvent, isAgentEvent, ih5]

/-- The loop never builds more often than its budget permits, and builds
fewer times only when some in-budget attempt succeeded. -/
theorem buildLoopFrom_count_le (buildOk : Nat → Bool) (errOf : Nat → String)
    (r : Nat) :
    ∀ a, ((buildLoopFrom buildOk errOf a r).trace.filter isBuildEvent).length ≤ r ∧
      (((buildLoopFrom buildOk errOf a r).trace.filter isBuildEvent).length < r →
        ∃ k, a ≤ k ∧ k < a + r ∧ buildOk k = true) := by
  induction r with
  | zero => intro a; simp [buildLoopFrom]
  | succ r ih =>
    intro a
    obtain ⟨ih1, ih2⟩ := ih (a + 1)
    by_cases hb : buildOk a = true
    · have h1 : ((buildLoopFrom buildOk errOf a (r + 1)).trace.filter isBuildEvent).length = 1 := by
        simp [buildLoopFrom, hb, isBuildEvent]
      refine ⟨by omega, fun _ => ⟨a, le_refl a, by omega, hb⟩⟩
    · have hb' : buildOk a = false := by simpa using hb
      have hlen : ((buildLoopFrom buildOk errOf a (r + 1)).trace.filter isBuildEvent).length
          = ((buildLoopFrom buildOk errOf (a + 1) r).trace.filter isBuildEvent).length + 1 := by
        rcases Nat.eq_zero_or_pos r with h0 | h0 <;>
          simp [buildLoopFrom, hb', h0, isBuildEvent]
      refine ⟨by omega, ?_⟩
      intro hlt
      have hlt' : ((buildLoopFrom buildOk errOf (a + 1) r).trace.filter isBuildEvent).length < r := by
        omega
      obtain ⟨k, hk1, hk2, hk3⟩ := ih2 hlt'
      exact ⟨k, by omega, by omega, hk3⟩

/-- On success the final attempt counter equals the index of the last build
performed: `finalAttempt + 1 = a + (number of builds)`. -/
theorem buildLoopFrom_success_attempt (buildOk : Nat → Bool) (errOf : Nat → String)
    (r : Nat) :
    ∀ a, (buildLoopFrom buildOk errOf a r).buildSuccess = true →
      (buildLoopFrom buildOk errOf a r).finalAttempt + 1 =
        a + ((buildLoopFrom buildOk errOf a r).trace.filter isBuildEvent).length := by
  induction r with
  | zero => intro a h; simp [buildLoopFrom] at h
  | succ r ih =>
    intro a h
    by_cases hb : buildOk a = true
    · have h1 : ((buildLoopFrom buildOk errOf a (r + 1)).trace.filter isBuildEvent).length = 1 := by
        simp [buildLoopFrom, hb, isBuildEvent]
      have h2 : (buildLoopFrom buildOk errOf a (r + 1)).finalAttempt = a := by
        simp [buildLoopFrom, hb]
      omega
    · have hb' : buildOk a = false := by simpa using hb
      have hsx : (buildLoopFrom buildOk errOf a (r + 1)).buildSuccess
          = (buildLoopFrom buildOk errOf (a + 1) r).buildSuccess := by
        simp [buildLoopFrom, hb']
      have hfx : (buildLoopFrom buildOk errOf a (r + 1)).finalAttempt
          = (buildLoopFrom buildOk errOf (a + 1) r).finalAttempt := by
        simp [buildLoopFrom, hb']
      have hlen : ((buildLoopFrom buildOk errOf a (r + 1)).trace.filter isBuildEvent).length
          = ((buildLoopFrom buildOk errOf (a + 1) r).trace.filter isBuildEvent).length + 1 := by
        rcases Nat.eq_zero_or_pos r with h0 | h0 <;>
          simp [buildLoopFrom, hb', h0, isBuildEvent]
      have ihx := ih (a + 1) (by rw [hsx] at h; exact h)
      omega

/-- Every event the loop emits is a build or a repair-agent invocation. -/
theorem buildLoopFrom_trace_events (buildOk : Nat → Bool) (errOf : Nat → String)
    (r : Nat) :
    ∀ a, ∀ e ∈ (buildLoopFrom buildOk errOf a r).trace,
      isBuildEvent e = true ∨ isAgentEvent e = true := by
  induction r with
  | zero => intro a e he; simp [buildLoopFrom] at he
  | succ r ih =>
    intro a e he
    by_cases hb : buildOk a = true
    · simp [buildLoopFrom, hb] at he
      subst he; left; rfl
    · have hb' : buildOk a = false := by simpa using hb
      simp [buildLoopFrom, hb'] at he
      rcases he with he | he | he
      · subst he; left; rfl
      · rcases he with ⟨-, he⟩
        subst he; right; rfl
      · exact ih (a + 1) e he

/-- `run_evaluation` in the normal case (setup and agent auth both fine). -/
theorem run_evaluation_eq (cfg : EvalConfig)
    (hs : cfg.setupOk = true) (ha : cfg.agentOk = true) :
    run_evaluation cfg =
      { record :=
          if evalPassed cfg (buildLoop cfg.maxRetries cfg.buildOk cfg.errOf) then
            .pass (buildLoop cfg.maxRetries cfg.buildOk cfg.errOf).finalAttempt
              (buildLoop cfg.maxRetries cfg.buildOk cfg.errOf).retryErrors
          else
            .fail (buildLoop cfg.maxRetries cfg.buildOk cfg.errOf).finalAttempt
              (failReasons (buildLoop cfg.maxRetries cfg.buildOk cfg.errOf).buildSuccess
                (!(patternsFound cfg == patternsTotal cfg))
                (!(negativeFailed cfg == 0)))
              (buildLoop cfg.maxRetries cfg.buildOk cfg.errOf).retryErrors
        trace := Event.setup :: Event.agentInvoke ::
          ((buildLoop cfg.maxRetries cfg.buildOk cfg.errOf).trace ++ [Event.patternCheck])
        archived := !evalPassed cfg (buildLoop cfg.maxRetries cfg.buildOk cfg.errOf)
          || decide (1 < (buildLoop cfg.maxRetries cfg.buildOk cfg.errOf).finalAttempt)
        workspaceRemoved := true } := by
  rw [run_evaluation, if_neg (by simp [hs]), if_neg (by simp [ha])]

/-- The final `if` of `run_evaluation` holds exactly when the build succeeded,
every non-empty required pattern was found, and no non-empty forbidden
pattern was found. -/
theorem evalPassed_iff (cfg : EvalConfig) (lr : LoopResult) :
    evalPassed cfg lr = true ↔
      (lr.buildSuccess = true ∧
       (∀ p ∈ cfg.verifyPatterns, p ≠ "" → cfg.patMatches p = true) ∧
       (∀ p ∈ cfg.negativePatterns, p ≠ "" → cfg.patMatches p = false)) := by
  simp only [evalPassed, Bool.and_eq_true, beq_iff_eq, patternsFound, patternsTotal,
    negativeFailed]
  constructor
  · rintro ⟨⟨hb, hfound⟩, hneg⟩
    refine ⟨hb, ?_, ?_⟩
    · intro p hp hpne
      have hall := (length_filter_eq_length_iff cfg.patMatches (requiredPatterns cfg)).mp hfound
      exact hall p (by simp [requiredPatterns, List.mem_filter, hp, hpne])
    · intro p hp hpne
      have hnil : (negPatterns cfg).filter cfg.patMatches = [] :=
        List.length_eq_zero.mp hneg
      have hforall := List.filter_eq_nil_iff.mp hnil
      have hnp := hforall p (by simp [negPatterns, List.mem_filter, hp, hpne])
      simpa using hnp
  · rintro ⟨hb, hreq, hneg⟩
    refine ⟨⟨hb, ?_⟩, ?_⟩
    · apply (length_filter_eq_length_iff cfg.patMatches (requiredPatterns cfg)).mpr
      intro p hp
      simp only [requiredPatterns, List.mem_filter] at hp
      exact hreq p hp.1 (by simpa using hp.2)
    · apply List.length_eq_zero.mpr
      apply List.filter_eq_nil_iff.mpr
      intro p hp
      simp only [negPatterns, List.mem_filter] at hp
      simp [hneg p hp.1 (by simpa using hp.2)]

/-- The recorded attempt field is the loop's final counter, pass or fail. -/
theorem record_attempt_ite (c : Bool) (fa : Nat) (e rs : List String) :
    (if c then ResultRecord.pass fa e else ResultRecord.fail fa rs e).attempt = fa := by
  split <;> rfl

/-- The recorded retry-error list is the loop's, pass or fail. -/
theorem record_retryErrors_ite (c : Bool) (fa : Nat) (e rs : List String) :
    (if c then ResultRecord.pass fa e else ResultRecord.fail fa rs e).retryErrors = e := by
  split <;> rfl

/-- `isPass` of the final record is the pass condition itself. -/
theorem record_isPass_ite (c : Bool) (fa : Nat) (e rs : List String) :
    (if c then ResultRecord.pass fa e else ResultRecord.fail fa rs e).isPass = c := by
  rcases c with _ | _ <;> simp [ResultRecord.isPass]

/-! ## Claim theorems -/

/-- C1: an evaluation's final result is a pass if and only if the build
succeeded, every (non-empty) required verify-pattern was found in the
workspace source tree, and no (non-empty) forbidden pattern was found
there; any one of the three conditions failing makes the result a
failure. -/
theorem pass_iff_build_and_patterns (cfg : EvalConfig)
    (hs : cfg.setupOk = true) (ha : cfg.agentOk = true) :
    (run_evaluation cfg).record.isPass = true ↔
      ((buildLoop cfg.maxRetries cfg.buildOk cfg.errOf).buildSuccess = true ∧
       (∀ p ∈ cfg.verifyPatterns, p ≠ "" → cfg.patMatches p = true) ∧
       (∀ p ∈ cfg.negativePatterns, p ≠ "" → cfg.patMatches p = false)) := by
  rw [run_evaluation_eq cfg hs ha]
  dsimp only
  rw [record_isPass_ite]
  exact evalPassed_iff cfg (buildLoop cfg.maxRetries cfg.buildOk cfg.errOf)

/-- Witness for C1 at a concrete configuration: build succeeds at once, the
one required pattern is matched, no forbidden pattern is present, and the
evaluation indeed passes. -/
theorem pass_iff_build_and_patterns_witness :
    (⟨3, true, true, fun _ => true, fun _ => "", ["class XResolver"], ["Base64"],
        fun p => p == "class XResolver"⟩ : EvalConfig).setupOk = true ∧
    (⟨3, true, true, fun _ => true, fun _ => "", ["class XResolver"], ["Base64"],
        fun p => p == "class XResolver"⟩ : EvalConfig).agentOk = true ∧
    ((run_evaluation ⟨3, true, true, fun _ => true, fun _ => "", ["class XResolver"],
        ["Base64"], fun p => p == "class XResolver"⟩).record.isPass = true ↔
      ((buildLoop 3 (fun _ => true) (fun _ => "")).buildSuccess = true ∧
       (∀ p ∈ ["class XResolver"], p ≠ "" →
          (fun p => p == "class XResolver") p = true) ∧
       (∀ p ∈ ["Base64"], p ≠ "" →
          (fun p => p == "class XResolver") p = false))) :=
  ⟨rfl, rfl, pass_iff_build_and_patterns _ rfl rfl⟩

/-- C2: when every build attempt fails, the loop performs exactly
`MAX_RETRIES` build attempts and records exactly one diagnostic per failed
attempt, and the evaluation fails; in general the loop never performs more
than `MAX_RETRIES` builds, and performs fewer only when some in-budget
attempt's build succeeds. -/
theorem retries_exhausted_on_persistent_failure (cfg : EvalConfig)
    (hs : cfg.setupOk = true) (ha : cfg.agentOk = true)
    (hfail : ∀ n, cfg.buildOk n = false) :
    buildAttempts (run_evaluation cfg) = cfg.maxRetries ∧
    (run_evaluation cfg).record.retryErrors =
      (List.range cfg.maxRetries).map (fun j => cfg.errOf (1 + j)) ∧
    (run_evaluation cfg).record.isPass = false ∧
    (∀ bOk eOf, ((buildLoop cfg.maxRetries bOk eOf).trace.filter isBuildEvent).length ≤
        cfg.maxRetries ∧
      (((buildLoop cfg.maxRetries bOk eOf).trace.filter isBuildEvent).length <
          cfg.maxRetries →
        ∃ k, 1 ≤ k ∧ k ≤ cfg.maxRetries ∧ bOk k = true)) := by
  obtain ⟨l1, l2, l3, l4, l5⟩ :=
    buildLoopFrom_all_fail cfg.buildOk cfg.errOf hfail cfg.maxRetries 1
  have hnotpass : evalPassed cfg (buildLoop cfg.maxRetries cfg.buildOk cfg.errOf) = false := by
    simp [evalPassed, buildLoop, l1]
  rw [run_evaluation_eq cfg hs ha]
  refine ⟨?_, ?_, ?_, ?_⟩
  · simp only [buildAttempts, List.filter_cons, List.filter_append]
    simp [isBuildEvent, buildLoop, l4]
  · rw [record_retryErrors_ite]
    rw [show (buildLoop cfg.maxRetries cfg.buildOk cfg.errOf).retryErrors =
      (buildLoopFrom cfg.buildOk cfg.errOf 1 cfg.maxRetries).retryErrors from rfl, l3]
  · rw [record_isPass_ite, hnotpass]
  · intro bOk eOf
    have hc := buildLoopFrom_count_le bOk eOf cfg.maxRetries 1
    refine ⟨hc.1, fun hlt => ?_⟩
    obtain ⟨k, hk1, hk2, hk3⟩ := hc.2 hlt
    exact ⟨k, hk1, by omega, hk3⟩

/-- Witness for C2: with `MAX_RETRIES = 3` and a build that always fails,
exactly three builds run, three diagnostics are recorded, and the
evaluation fails. -/
theorem retries_exhausted_on_persistent_failure_witness :
    buildAttempts (run_evaluation ⟨3, true, true, fun _ => false, fun n => toString n,
        [], [], fun _ => false⟩) = 3 ∧
    (run_evaluation ⟨3, true, true, fun _ => false, fun n => toString n,
        [], [], fun _ => false⟩).record.retryErrors =
      (List.range 3).map (fun j => toString (1 + j)) ∧
    (run_evaluation ⟨3, true, true, fun _ => false, fun n => toString n,
        [], [], fun _ => false⟩).record.isPass = false :=
  have h := retries_exhausted_on_persistent_failure
    ⟨3, true, true, fun _ => false, fun n => toString n, [], [], fun _ => false⟩
    rfl rfl (fun _ => rfl)
  ⟨h.1, h.2.1, h.2.2.1⟩

/-- C3 (amended): the extracted diagnostic is the first match in the fixed
priority order of error signatures — unresolved-reference first, then
missing-symbol (`cannot find symbol`), then `not found`, then `expected`,
then generic `error:` lines — and when none of the five signatures matches,
the diagnostic falls back to the first of the last three lines of the build
output (`tail -3 | head -1`), not to the last non-empty line. -/
theorem diagnostic_priority_order (lines : List String) :
    extract_error_summary lines = orderedSignatureExtract lines := by
  simp only [extract_error_summary, orderedSignatureExtract, firstSignatureMatch,
    errorSignatures]
  split_ifs <;> simp

/-- Counterexample to C3 as stated: on a build output with no known error
signature, the script extracts the third-from-last line (`tail -3 | head -1`),
not the last non-empty line the claim describes. -/
theorem diagnostic_fallback_counterexample :
    extract_error_summary ["alpha", "beta", "gamma"] = "alpha" ∧
    specLastNonEmptyLine ["alpha", "beta", "gamma"] = "gamma" ∧
    extract_error_summary ["alpha", "beta", "gamma"] ≠
      specLastNonEmptyLine ["alpha", "beta", "gamma"] := by
  refine ⟨by decide, by decide, by decide⟩

/-- C5: a setup (workspace provisioning) failure terminates the evaluation
immediately with a `SETUP_FAILED` result: no agent invocation and no build
attempt happens. -/
theorem setup_failure_short_circuits (cfg : EvalConfig)
    (h : cfg.setupOk = false) :
    (run_evaluation cfg).record = ResultRecord.fail 0 ["SETUP_FAILED"] [] ∧
    buildAttempts (run_evaluation cfg) = 0 ∧
    agentInvocations (run_evaluation cfg) = 0 := by
  rw [run_evaluation, if_pos h]
  refine ⟨rfl, ?_, ?_⟩ <;>
    simp [buildAttempts, agentInvocations, isBuildEvent, isAgentEvent]

/-- Witness for C5 at a concrete configuration whose setup fails. -/
theorem setup_failure_short_circuits_witness :
    (⟨3, false, true, fun _ => true, fun _ => "", [], [], fun _ => true⟩ :
        EvalConfig).setupOk = false ∧
    ((run_evaluation ⟨3, false, true, fun _ => true, fun _ => "", [], [],
        fun _ => true⟩).record = ResultRecord.fail 0 ["SETUP_FAILED"] [] ∧
      buildAttempts (run_evaluation ⟨3, false, true, fun _ => true, fun _ => "",
        [], [], fun _ => true⟩) = 0 ∧
      agentInvocations (run_evaluation ⟨3, false, true, fun _ => true, fun _ => "",
        [], [], fun _ => true⟩) = 0) :=
  ⟨rfl, setup_failure_short_circuits _ rfl⟩

/-- C6: the workspace path is derived deterministically from the evaluation
id plus the fixed skill-mode and backend suffixes, so two evaluations with
distinct ids (same mode, same backend) never share a workspace path. -/
theorem workspace_paths_distinct (workBase suffix backendSuffix evalId₁ evalId₂ : String)
    (h : evalId₁ ≠ evalId₂) :
    work_dir workBase evalId₁ suffix backendSuffix ≠
      work_dir workBase evalId₂ suffix backendSuffix := by
  intro heq
  apply h
  simp only [work_dir] at heq
  have hdata := congrArg String.data heq
  have hdata' : (((workBase.data ++ ("-" : String).data) ++ evalId₁.data) ++ suffix.data)
        ++ backendSuffix.data =
      (((workBase.data ++ ("-" : String).data) ++ evalId₂.data) ++ suffix.data)
        ++ backendSuffix.data := hdata
  have h1 := List.append_cancel_right hdata'
  have h2 := List.append_cancel_right h1
  have h3 := List.append_cancel_left h2
  exact String.ext h3

/-- Witness for C6 at two concrete evaluation ids. -/
theorem workspace_paths_distinct_witness :
    ("eval-01" : String) ≠ "eval-02" ∧
    work_dir "/tmp/viaduct-skill-eval" "eval-01" "" "-crush" ≠
      work_dir "/tmp/viaduct-skill-eval" "eval-02" "" "-crush" :=
  ⟨by decide, workspace_paths_distinct _ _ _ _ _ (by decide)⟩

/-- C7: the harness's exit code is 0 iff every selected evaluation passed
(a missing result file — a timeout — counts as a failure), in both the shell
scheduler and the TypeScript harness. -/
theorem exit_code_zero_iff_all_pass (results : List (Option ResultRecord))
    (passedFlags : List Bool) :
    (mainExitCode results = 0 ↔ ∀ r ∈ results, resultFilePass r = true) ∧
    (tsExitCode passedFlags = 0 ↔ ∀ b ∈ passedFlags, b = true) := by
  constructor
  · constructor
    · intro h r hr
      have hn : (results.filter (fun r => !(resultFilePass r))).length = 0 := by
        by_contra hne
        rw [mainExitCode, if_pos (by omega)] at h
        exact absurd h one_ne_zero
      have hnil := List.length_eq_zero.mp hn
      have hmem := List.filter_eq_nil_iff.mp hnil r hr
      simpa using hmem
    · intro hall
      have hnil : results.filter (fun r => !(resultFilePass r)) = [] := by
        apply List.filter_eq_nil_iff.mpr
        intro r hr
        simp [hall r hr]
      simp [mainExitCode, hnil]
  · constructor
    · intro h
      rw [tsExitCode] at h
      split at h
      · next heq =>
        exact (length_filter_eq_length_iff (fun b => b) passedFlags).mp (by simpa using heq)
      · exact absurd h one_ne_zero
    · intro hall
      have hlen : (passedFlags.filter (fun b => b)).length = passedFlags.length :=
        (length_filter_eq_length_iff (fun b => b) passedFlags).mpr hall
      simp [tsExitCode, hlen]

/-- C9: when neither a Claude usage log nor a Crush session database is
present, `extract_tokens` succeeds and records exactly zero prompt tokens,
zero completion tokens, and zero cost. -/
theorem extract_tokens_defaults_to_zero (sqlite3Available : Bool) :
    extract_tokens none none sqlite3Available = (0, 0, 0) := rfl

/-- The builds counted over a whole evaluation are exactly those of the
retry loop. -/
theorem buildAttempts_run_evaluation (cfg : EvalConfig)
    (hs : cfg.setupOk = true) (ha : cfg.agentOk = true) :
    buildAttempts (run_evaluation cfg) =
      ((buildLoop cfg.maxRetries cfg.buildOk cfg.errOf).trace.filter isBuildEvent).length := by
  rw [run_evaluation_eq cfg hs ha]
  simp [buildAttempts, isBuildEvent, List.filter_append]

/-- The agent invocations over a whole evaluation are the initial one plus
the loop's repair invocations. -/
theorem agentInvocations_run_evaluation (cfg : EvalConfig)
    (hs : cfg.setupOk = true) (ha : cfg.agentOk = true) :
    agentInvocations (run_evaluation cfg) =
      ((buildLoop cfg.maxRetries cfg.buildOk cfg.errOf).trace.filter isAgentEvent).length + 1 := by
  rw [run_evaluation_eq cfg hs ha]
  simp [agentInvocations, isAgentEvent, List.filter_append]

/-- C4: once a build attempt succeeds the retry loop stops at once — the
builds performed are exactly attempts `1 … k` where `k` is the first
successful attempt, the agent runs exactly `k` times (initial prompt plus
`k - 1` repairs), pattern verification happens exactly once, after the whole
loop, and the loop's behaviour does not depend on the pattern-check
outcomes, so a missing required pattern or present forbidden pattern never
triggers a retry even when retry budget remains. -/
theorem build_success_stops_retries (cfg : EvalConfig)
    (hs : cfg.setupOk = true) (ha : cfg.agentOk = true) (k : Nat)
    (h1 : 1 ≤ k) (hk : k ≤ cfg.maxRetries) (hsucc : cfg.buildOk k = true)
    (hmin : ∀ j, 1 ≤ j → j < k → cfg.buildOk j = false) :
    (run_evaluation cfg).trace.filter isBuildEvent =
      (List.range k).map (fun j => Event.build (1 + j)) ∧
    agentInvocations (run_evaluation cfg) = k ∧
    ((run_evaluation cfg).trace.filter (fun e => e == Event.patternCheck)).length = 1 ∧
    (∃ pre, (run_evaluation cfg).trace = pre ++ [Event.patternCheck] ∧
       ∀ e ∈ pre, e ≠ Event.patternCheck) ∧
    (∀ f, (run_evaluation { cfg with patMatches := f }).trace =
       (run_evaluation cfg).trace) := by
  obtain ⟨i, rfl⟩ : ∃ i, k = i + 1 := ⟨k - 1, by omega⟩
  have hir : i < cfg.maxRetries := by omega
  have hs2 : cfg.buildOk (1 + i) = true := by
    have harith : 1 + i = i + 1 := by omega
    rw [harith]; exact hsucc
  have hm2 : ∀ j, j < i → cfg.buildOk (1 + j) = false := by
    intro j hj
    exact hmin (1 + j) (by omega) (by omega)
  obtain ⟨f1, f2, f3, f4, f5⟩ :=
    buildLoopFrom_first_success cfg.buildOk cfg.errOf i 1 cfg.maxRetries hir hs2 hm2
  have g4 : (buildLoop cfg.maxRetries cfg.buildOk cfg.errOf).trace.filter isBuildEvent =
      (List.range (i + 1)).map (fun j => Event.build (1 + j)) := f4
  have g5 : ((buildLoop cfg.maxRetries cfg.buildOk cfg.errOf).trace.filter isAgentEvent).length
      = i := f5
  have gev : ∀ e ∈ (buildLoop cfg.maxRetries cfg.buildOk cfg.errOf).trace,
      isBuildEvent e = true ∨ isAgentEvent e = true :=
    buildLoopFrom_trace_events cfg.buildOk cfg.errOf cfg.maxRetries 1
  refine ⟨?_, ?_, ?_, ?_, ?_⟩
  · rw [run_evaluation_eq cfg hs ha]
    dsimp only
    simp only [List.filter_cons, List.filter_append]
    simp [isBuildEvent, g4]
  · rw [agentInvocations_run_evaluation cfg hs ha, g5]
  · rw [run_evaluation_eq cfg hs ha]
    dsimp only
    have hnil : (buildLoop cfg.maxRetries cfg.buildOk cfg.errOf).trace.filter
        (fun e => e == Event.patternCheck) = [] := by
      apply List.filter_eq_nil_iff.mpr
      intro e he
      rcases gev e he with hb | hb <;> rcases e <;>
        simp_all [isBuildEvent, isAgentEvent]
    simp only [List.filter_cons, List.filter_append, hnil]
    simp
  · refine ⟨Event.setup :: Event.agentInvoke ::
      (buildLoop cfg.maxRetries cfg.buildOk cfg.errOf).trace, ?_, ?_⟩
    · rw [run_evaluation_eq cfg hs ha]
      rfl
    · intro e he
      simp only [List.mem_cons] at he
      rcases he with rfl | rfl | he
      · simp
      · simp
      · intro hcontra
        subst hcontra
        rcases gev _ he with hb | hb <;>
          simp [isBuildEvent, isAgentEvent] at hb
  · intro f
    rw [run_evaluation_eq { cfg with patMatches := f } hs ha,
      run_evaluation_eq cfg hs ha]

/-- Witness for C4: build fails at attempt 1 and succeeds at attempt 2 with
retry budget 3; exactly two builds and two agent invocations happen and the
pattern check runs once at the end. -/
theorem build_success_stops_retries_witness :
    (run_evaluation ⟨3, true, true, fun n => n == 2, fun n => toString n, [], [],
        fun _ => true⟩).trace.filter isBuildEvent =
      (List.range 2).map (fun j => Event.build (1 + j)) ∧
    agentInvocations (run_evaluation ⟨3, true, true, fun n => n == 2,
        fun n => toString n, [], [], fun _ => true⟩) = 2 ∧
    ((run_evaluation ⟨3, true, true, fun n => n == 2, fun n => toString n, [], [],
        fun _ => true⟩).trace.filter (fun e => e == Event.patternCheck)).length = 1 ∧
    (∃ pre, (run_evaluation ⟨3, true, true, fun n => n == 2, fun n => toString n,
        [], [], fun _ => true⟩).trace = pre ++ [Event.patternCheck] ∧
       ∀ e ∈ pre, e ≠ Event.patternCheck) ∧
    (∀ f, (run_evaluation { (⟨3, true, true, fun n => n == 2, fun n => toString n,
        [], [], fun _ => true⟩ : EvalConfig) with patMatches := f }).trace =
       (run_evaluation ⟨3, true, true, fun n => n == 2, fun n => toString n, [], [],
        fun _ => true⟩).trace) :=
  build_success_stops_retries
    ⟨3, true, true, fun n => n == 2, fun n => toString n, [], [], fun _ => true⟩
    rfl rfl 2 (by omega) (by decide) rfl
    (by
      intro j hj1 hj2
      have hj : j = 1 := by omega
      subst hj
      rfl)

/-- C8: for a completed evaluation an archived workspace copy is kept iff
the evaluation failed or took more than one build attempt, and the temporary
workspace is always removed. -/
theorem workspace_archive_iff (cfg : EvalConfig)
    (hs : cfg.setupOk = true) (ha : cfg.agentOk = true) :
    (run_evaluation cfg).workspaceRemoved = true ∧
    ((run_evaluation cfg).archived = true ↔
      ((run_evaluation cfg).record.isPass = false ∨
        1 < buildAttempts (run_evaluation cfg))) := by
  rw [buildAttempts_run_evaluation cfg hs ha, run_evaluation_eq cfg hs ha]
  dsimp only
  rw [record_isPass_ite]
  refine ⟨rfl, ?_⟩
  by_cases hp : evalPassed cfg (buildLoop cfg.maxRetries cfg.buildOk cfg.errOf) = true
  · have hbs : (buildLoop cfg.maxRetries cfg.buildOk cfg.errOf).buildSuccess = true := by
      have hx := hp
      simp only [evalPassed, Bool.and_eq_true] at hx
      exact hx.1.1
    have hfa : (buildLoop cfg.maxRetries cfg.buildOk cfg.errOf).finalAttempt + 1 =
        1 + ((buildLoop cfg.maxRetries cfg.buildOk cfg.errOf).trace.filter
          isBuildEvent).length :=
      buildLoopFrom_success_attempt cfg.buildOk cfg.errOf cfg.maxRetries 1 hbs
    rw [hp]
    simp only [Bool.not_true, Bool.false_or, decide_eq_true_eq]
    constructor
    · intro h
      right
      omega
    · rintro (h | h)
      · exact absurd h (by simp)
      · omega
  · have hp' : evalPassed cfg (buildLoop cfg.maxRetries cfg.buildOk cfg.errOf) = false := by
      rw [Bool.not_eq_true] at hp
      exact hp
    rw [hp']
    simp

/-- Witness for C8: an evaluation that passes on its second build attempt is
archived (more than one attempt) and its temporary workspace is removed. -/
theorem workspace_archive_iff_witness :
    (run_evaluation ⟨3, true, true, fun n => n == 2, fun n => toString n, [],
        [], fun _ => true⟩).workspaceRemoved = true ∧
    ((run_evaluation ⟨3, true, true, fun n => n == 2, fun n => toString n, [],
        [], fun _ => true⟩).archived = true ↔
      ((run_evaluation ⟨3, true, true, fun n => n == 2, fun n => toString n, [],
        [], fun _ => true⟩).record.isPass = false ∨
        1 < buildAttempts (run_evaluation ⟨3, true, true, fun n => n == 2,
          fun n => toString n, [], [], fun _ => true⟩))) :=
  workspace_archive_iff
    ⟨3, true, true, fun n => n == 2, fun n => toString n, [], [], fun _ => true⟩
    rfl rfl

/-- C10: when the retry budget is exhausted the attempt field written into
the FAIL record is `MAX_RETRIES + 1` — one more than the builds actually
performed, because the counter is incremented after the last failed attempt;
when some build succeeds (pass or pattern-failure), the recorded attempt
equals the index of the succeeding build attempt. -/
theorem recorded_attempt_count (cfg : EvalConfig)
    (hs : cfg.setupOk = true) (ha : cfg.agentOk = true) :
    ((∀ n, cfg.buildOk n = false) →
       (run_evaluation cfg).record.attempt = cfg.maxRetries + 1 ∧
       (run_evaluation cfg).record.attempt = buildAttempts (run_evaluation cfg) + 1 ∧
       (run_evaluation cfg).record.isPass = false) ∧
    (∀ k, 1 ≤ k → k ≤ cfg.maxRetries → cfg.buildOk k = true →
       (∀ j, 1 ≤ j → j < k → cfg.buildOk j = false) →
       (run_evaluation cfg).record.attempt = k ∧
       buildAttempts (run_evaluation cfg) = k) := by
  constructor
  · intro hfail
    obtain ⟨l1, l2, l3, l4, l5⟩ :=
      buildLoopFrom_all_fail cfg.buildOk cfg.errOf hfail cfg.maxRetries 1
    have g1 : (buildLoop cfg.maxRetries cfg.buildOk cfg.errOf).buildSuccess = false := l1
    have g2 : (buildLoop cfg.maxRetries cfg.buildOk cfg.errOf).finalAttempt =
        1 + cfg.maxRetries := l2
    have g4 : ((buildLoop cfg.maxRetries cfg.buildOk cfg.errOf).trace.filter
        isBuildEvent).length = cfg.maxRetries := l4
    have hnp : evalPassed cfg (buildLoop cfg.maxRetries cfg.buildOk cfg.errOf) = false := by
      simp [evalPassed, g1]
    rw [buildAttempts_run_evaluation cfg hs ha, run_evaluation_eq cfg hs ha]
    dsimp only
    rw [record_attempt_ite, record_isPass_ite, hnp, g2, g4]
    exact ⟨by omega, by omega, rfl⟩
  · intro k hk1 hk2 hsucc hmin
    obtain ⟨i, rfl⟩ : ∃ i, k = i + 1 := ⟨k - 1, by omega⟩
    have hir : i < cfg.maxRetries := by omega
    have hs2 : cfg.buildOk (1 + i) = true := by
      have harith : 1 + i = i + 1 := by omega
      rw [harith]; exact hsucc
    have hm2 : ∀ j, j < i → cfg.buildOk (1 + j) = false := by
      intro j hj
      exact hmin (1 + j) (by omega) (by omega)
    obtain ⟨f1, f2, f3, f4, f5⟩ :=
      buildLoopFrom_first_success cfg.buildOk cfg.errOf i 1 cfg.maxRetries hir hs2 hm2
    have g2 : (buildLoop cfg.maxRetries cfg.buildOk cfg.errOf).finalAttempt = 1 + i := f2
    have g4 : (buildLoop cfg.maxRetries cfg.buildOk cfg.errOf).trace.filter isBuildEvent =
        (List.range (i + 1)).map (fun j => Event.build (1 + j)) := f4
    rw [buildAttempts_run_evaluation cfg hs ha, run_evaluation_eq cfg hs ha]
    dsimp only
    rw [record_attempt_ite, g2, g4]
    constructor
    · omega
    · simp

/-- Witness for C10: with budget 3 and a permanently failing build, the FAIL
record carries attempt 4 while only 3 builds ran; and in a run succeeding at
attempt 2 the record carries attempt 2. -/
theorem recorded_attempt_count_witness :
    (((∀ n, (fun _ => false : Nat → Bool) n = false) →
       (run_evaluation ⟨3, true, true, fun _ => false, fun n => toString n, [], [],
          fun _ => true⟩).record.attempt = 3 + 1 ∧
       (run_evaluation ⟨3, true, true, fun _ => false, fun n => toString n, [], [],
          fun _ => true⟩).record.attempt =
         buildAttempts (run_evaluation ⟨3, true, true, fun _ => false,
          fun n => toString n, [], [], fun _ => true⟩) + 1 ∧
       (run_evaluation ⟨3, true, true, fun _ => false, fun n => toString n, [], [],
          fun _ => true⟩).record.isPass = false) ∧
    (∀ k, 1 ≤ k → k ≤ 3 → (fun _ => false : Nat → Bool) k = true →
       (∀ j, 1 ≤ j → j < k → (fun _ => false : Nat → Bool) j = false) →
       (run_evaluation ⟨3, true, true, fun _ => false, fun n => toString n, [], [],
          fun _ => true⟩).record.attempt = k ∧
       buildAttempts (run_evaluation ⟨3, true, true, fun _ => false,
          fun n => toString n, [], [], fun _ => true⟩) = k)) :=
  recorded_attempt_count
    ⟨3, true, true, fun _ => false, fun n => toString n, [], [], fun _ => true⟩
    rfl rfl

end ViaductEval


